import Mathlib

set_option maxRecDepth 100000

/-!
Verification of the compliance-framework plugin-github-settings evaluation
pipeline: a shallow embedding of `internal/eval.go` (PolicyEvaluator),
`internal/data.go` (DataFetcher) and `main.go` (config validation), with
theorems settling the frozen claims about them.

External collaborators (the policy engine `GenerateResults`, the GitHub API
client, the URI parser of the standard library) are modelled as abstract
function parameters, exactly at their call signature.  Machine-opaque values
(evidence records, errors, teams, organizations returned by the platform)
are type parameters.
-/

namespace GithubSettings

/-! ### The proto data model (the fields the embedded code reads or writes) -/

/-- `proto.Step`: title, description, optional remarks pointer. -/
structure Step where
  Title : String
  Description : String
  Remarks : Option String := none
deriving DecidableEq

/-- `proto.Activity`: title, description and the list of steps. -/
structure Activity where
  Title : String
  Description : String
  Steps : List Step := []
deriving DecidableEq

/-- `proto.Link`. -/
structure Link where
  Href : String
  Rel : Option String := none
  Text : Option String := none
deriving DecidableEq

/-- `proto.Property` (the fields set by this plugin). -/
structure Property where
  Name : String
  Value : String
deriving DecidableEq

/-- `proto.OriginActor`. -/
structure OriginActor where
  Title : String
  Type' : String
  Links : List Link := []
  Props : Option (List Property) := none
deriving DecidableEq

/-- `proto.Component` (the fields set by this plugin). -/
structure Component where
  Identifier : String
  Type' : String
  Title : String
  Description : String
  Purpose : String
deriving DecidableEq

/-- `proto.InventoryItemImplementedComponent`: a reference by identifier
only — the component record itself is not embedded. -/
structure InventoryItemImplementedComponent where
  Identifier : String
deriving DecidableEq

/-- `proto.InventoryItem` (the fields set by this plugin). -/
structure InventoryItem where
  Identifier : String
  Type' : String
  Title : String
  Props : List Property := []
  Links : List Link := []
  ImplementedComponents : List InventoryItemImplementedComponent := []
deriving DecidableEq

/-- `proto.SubjectType` (the two constructors this plugin uses). -/
inductive SubjectType where
  | SUBJECT_TYPE_INVENTORY_ITEM
  | SUBJECT_TYPE_COMPONENT
deriving DecidableEq

/-- `proto.Subject`. -/
structure Subject where
  Type' : SubjectType
  Identifier : String
deriving DecidableEq

/-- `proto.ExecutionStatus`. -/
inductive ExecutionStatus where
  | SUCCESS
  | FAILURE
deriving DecidableEq

/-- `github.Organization`, restricted to the accessors this plugin calls
(`GetLogin`, `GetName`, `GetURL`).  go-github stores pointer fields; the
`GetX` helpers return the zero string on nil, modelled by `Option.getD`. -/
structure Organization where
  login : Option String := none
  name : Option String := none
  url : Option String := none
deriving DecidableEq

def Organization.GetLogin (o : Organization) : String := o.login.getD ""

def Organization.GetName (o : Organization) : String := o.name.getD ""

def Organization.GetURL (o : Organization) : String := o.url.getD ""

/-! ### `internal/eval.go`: the PolicyEvaluator

Evidence records and engine errors are opaque values produced by the policy
engine, so they are type parameters `E` and `R` below. -/

/-- The evaluator struct.  The `ctx`/`logger` handles are opaque pass-through
values with no observable behaviour in this file and are not modelled. -/
structure PolicyEvaluator (E : Type) where
  stepActivities : List Activity
  evidences : List E
deriving DecidableEq

/-- `NewPolicyEvaluator`: stores the step activities and starts with an
empty evidence collection. -/
def NewPolicyEvaluator (E : Type) (stepActivities : List Activity) :
    PolicyEvaluator E :=
  { stepActivities := stepActivities, evidences := [] }

/-- `GetEvidences`. -/
def PolicyEvaluator.GetEvidences {E : Type} (pe : PolicyEvaluator E) : List E :=
  pe.evidences

/-- The two hardcoded steps appended to `steps` at the top of `Eval`. -/
def evalSteps : List Step :=
  [ { Title := "Compile policy bundle",
      Description := "Using a locally addressable policy path, compile the policy files to an in memory executable." },
    { Title := "Execute policy bundle",
      Description := "Using previously collected JSON-formatted installed OS package data, execute the compiled policies" } ]

/-- The `actors` slice built in `Eval`: the assessment platform and this
plugin, each with one reference link. -/
def evalActors : List OriginActor :=
  [ { Title := "The Continuous Compliance Framework",
      Type' := "assessment-platform",
      Links := [ { Href := "https://compliance-framework.github.io/docs/",
                   Rel := some "reference",
                   Text := some "The Continuous Compliance Framework" } ],
      Props := none },
    { Title := "Continuous Compliance Framework - Github Settings plugin",
      Type' := "tool",
      Links := [ { Href := "https://github.com/compliance-framework/plugin-github-settings",
                   Rel := some "reference",
                   Text := some "The Continuous Compliance Framework' Github Settings Plugin" } ],
      Props := none } ]

/-- The `components` slice built in `Eval`: the fixed hardcoded pair. -/
def evalComponents : List Component :=
  [ { Identifier := "common-components/github-organization",
      Type' := "service",
      Title := "GitHub Organization",
      Description := "A GitHub Organization is a managed namespace within GitHub that centralizes repositories, teams, access controls, and audit logs for an organization. It supports fine-grained permissions, integrates with identity providers (like SSO), and provides a unified policy and governance layer across all code assets.",
      Purpose := "To securely manage repositories, teams, and permissions at scale within a centralized administrative structure, supporting governance, policy enforcement, auditability, and organizational collaboration across projects hosted on GitHub." },
    { Identifier := "common-components/version-control",
      Type' := "service",
      Title := "Version Control",
      Description := "Version control systems track and manage changes to source code and configuration files over time. They provide collaboration, traceability, and the ability to audit or revert code to previous states. Version control enables parallel development workflows and structured release management across software projects.",
      Purpose := "To maintain a complete and auditable history of code and configuration changes, enable collaboration across distributed teams, and support secure and traceable software development lifecycle (SDLC) practices." } ]

/-- The `inventory` slice built in `Eval`: one item for the fetched
organization, linking to both components by identifier reference. -/
def evalInventory (organization : Organization) : List InventoryItem :=
  [ { Identifier := "github-organization/" ++ organization.GetLogin,
      Type' := "github-organization",
      Title := "Github Organization [" ++ organization.GetName ++ "]",
      Props := [ { Name := "name", Value := organization.GetName },
                 { Name := "path", Value := organization.GetLogin } ],
      Links := [ { Href := organization.GetURL,
                   Text := some "Organization URL" } ],
      ImplementedComponents :=
        [ { Identifier := "common-components/github-organization" },
          { Identifier := "common-components/version-control" } ] } ]

/-- The `subjects` slice built in `Eval`. -/
def evalSubjects (organization : Organization) : List Subject :=
  [ { Type' := SubjectType.SUBJECT_TYPE_INVENTORY_ITEM,
      Identifier := "github-organization/" ++ organization.GetLogin },
    { Type' := SubjectType.SUBJECT_TYPE_COMPONENT,
      Identifier := "common-components/github-organization" },
    { Type' := SubjectType.SUBJECT_TYPE_COMPONENT,
      Identifier := "common-components/version-control" } ]

/-- The single "Compile Results" activity appended to `activities` in `Eval`. -/
def compileResultsActivity : Activity :=
  { Title := "Compile Results",
    Description := "Using the output from policy execution, compile the resulting output to Observations and Findings, marking any violations, risks, and other OSCAL-familiar data",
    Steps := evalSteps }

/-- The `activities` slice passed to every policy processor. -/
def evalActivities : List Activity := [compileResultsActivity]

/-- One invocation of `policyManager.NewPolicyProcessor`: the label map and
the scaffolding handed to the policy engine for one bundle path. -/
structure ProcessorCall where
  labels : List (String × String)
  subjects : List Subject
  components : List Component
  inventory : List InventoryItem
  actors : List OriginActor
  activities : List Activity
  policyPath : String
deriving DecidableEq

/-- The processor constructed in the body of the bundle loop of `Eval` for a
given bundle path: all scaffolding is the one built before the loop. -/
def processorCall (organization : Organization) (policyPath : String) :
    ProcessorCall :=
  { labels := [("provider", "github"), ("type", "organization"),
               ("organization", organization.GetLogin)],
    subjects := evalSubjects organization,
    components := evalComponents,
    inventory := evalInventory organization,
    actors := evalActors,
    activities := evalActivities,
    policyPath := policyPath }

/-- The external policy engine at the `GenerateResults` boundary: given the
processor's scaffolding/labels (bound at construction), and the organization
as the document under test, it returns generated evidence and an optional
error. -/
def Engine (E R : Type) : Type :=
  ProcessorCall → Organization → List E × Option R

/-- The bundle loop of `Eval`: per path, call the engine on the processor
built for that path, concatenate the returned evidence (always, also next to
an error, as `slices.Concat` runs before the error check), and collect the
non-nil per-bundle errors in loop order (`errors.Join` semantics: the join
of the collected errors, nil when none were collected). -/
def evalBundles {E R : Type} (engine : Engine E R) (organization : Organization) :
    List String → List E × List R
  | [] => ([], [])
  | policyPath :: rest =>
    let res := engine (processorCall organization policyPath) organization
    let tailRes := evalBundles engine organization rest
    (res.1 ++ tailRes.1,
     (match res.2 with | none => [] | some e => [e]) ++ tailRes.2)

/-- `errors.Join` over the collected per-bundle errors: nil when no error
was joined, otherwise the non-empty join. -/
def joinedErrors {R : Type} (errs : List R) : Option (List R) :=
  if errs.isEmpty then none else some errs

/-- `PolicyEvaluator.Eval`: builds the scaffolding once, runs the bundle
loop, overwrites `pe.evidences` with the collected evidence, and returns the
status (set to `SUCCESS` before the loop and never changed) together with
the accumulated error. -/
def PolicyEvaluator.Eval {E R : Type} (engine : Engine E R)
    (pe : PolicyEvaluator E) (organization : Organization)
    (policyPaths : List String) :
    PolicyEvaluator E × ExecutionStatus × Option (List R) :=
  let res := evalBundles engine organization policyPaths
  ({ pe with evidences := res.1 }, ExecutionStatus.SUCCESS, joinedErrors res.2)

/-! ### `internal/data.go`: the DataFetcher

The GitHub API client is an external collaborator, modelled at its call
boundary: `Organizations.Get` and `Teams.ListTeams`.  Organization values,
team values and transport errors returned by the platform are opaque, so
they are type parameters `Org`, `Team`, `R`.  The fetcher's team loop has no
bound of its own in Go; the embedding adds fuel and returns `none` exactly
when the loop would still be running (an infinite next-page chain). -/

/-- `github.ListOptions`: the pagination options (`PerPage`, `Page`).  The
zero value of `Page` in Go is 0. -/
structure ListOptions where
  PerPage : Nat
  Page : Nat := 0
deriving DecidableEq

/-- The GitHub client at the two endpoints `FetchData` calls.  `listTeams`
returns the page's teams together with `resp.NextPage`. -/
structure Client (Org Team R : Type) where
  getOrganization : String → Except R Org
  listTeams : String → ListOptions → Except R (List Team × Nat)

/-- One outbound request issued by `FetchData`, for tracing the calls the
fetcher makes. -/
inductive Request where
  | getOrg (org : String)
  | listTeams (org : String) (opt : ListOptions)
deriving DecidableEq

/-- One `logger.Error` emission of `FetchData`: message, the organization
identifier, and the underlying error. -/
structure LogEntry (R : Type) where
  msg : String
  org : String
  err : R
deriving DecidableEq

/-- `internal.GithubData`. -/
structure GithubData (Org Team : Type) where
  Settings : Org
  Teams : List Team
deriving DecidableEq

/-- The observable outcome of one `FetchData` call: the returned triple
(data, steps, error) (Go returns `nil, nil, err` on failure, hence
`data = none` and `steps = []` there), plus the trace of issued requests
and error-log emissions. -/
structure FetchResult (Org Team R : Type) where
  data : Option (GithubData Org Team)
  steps : List Step
  err : Option R
  requests : List Request
  logs : List (LogEntry R)
deriving DecidableEq

/-- The three steps appended to `steps` at the top of `FetchData`. -/
def fetchSteps : List Step :=
  [ { Title := "Configure the Github Client with the Personal Access Token",
      Description := "Using the helper functions within the client, creates a Github API client that can query the API" },
    { Title := "Query the organization endpoint",
      Description := "Using the client's native APIs, Get all the information from the organization endpoint",
      Remarks := some "More information about data being sent back can be found here: https://docs.github.com/en/rest/orgs/orgs?apiVersion=2022-11-28#get-an-organization" },
    { Title := "Get Teams",
      Description := "Using the client's native APIs, Get all the information from the teams endpoint",
      Remarks := some "More information about data being sent back can be found here: https://docs.github.com/en/rest/teams/teams?apiVersion=2022-11-28#list-teams" } ]

/-- The `for` loop of `FetchData`: request a page of teams; on error, log
and fail with that error at once; otherwise append the page's teams and
either stop (`NextPage = 0`) or continue at `Page := NextPage` with the same
`PerPage`.  Returns the accumulated teams with the request trace and logs,
or `none` when the fuel runs out (the Go loop would still be running). -/
def fetchTeamsLoop {Org Team R : Type} (c : Client Org Team R) (org : String) :
    Nat → ListOptions → List Team → List Request →
    Option (Except (R × List Request × List (LogEntry R)) (List Team × List Request))
  | 0, _, _, _ => none
  | fuel + 1, opt, allTeams, reqs =>
    let reqs := reqs ++ [Request.listTeams org opt]
    match c.listTeams org opt with
    | Except.error e =>
      some (Except.error (e, reqs,
        [{ msg := "Error getting teams information", org := org, err := e }]))
    | Except.ok (teams, nextPage) =>
      let allTeams := allTeams ++ teams
      if nextPage = 0 then
        some (Except.ok (allTeams, reqs))
      else
        fetchTeamsLoop c org fuel { opt with Page := nextPage } allTeams reqs

/-- `DataFetcher.FetchData`: build the three steps, get the organization
(failing fast on error, with a log naming the organization and the error),
then page through the teams with `PerPage = 100`, and return the assembled
`GithubData` with the steps.  On any request failure the Go code returns
`nil, nil, err`: no data and a nil step list. -/
def FetchData {Org Team R : Type} (c : Client Org Team R) (organization : String)
    (fuel : Nat) : Option (FetchResult Org Team R) :=
  match c.getOrganization organization with
  | Except.error e =>
    some { data := none, steps := [], err := some e,
           requests := [Request.getOrg organization],
           logs := [{ msg := "Error getting organization information",
                      org := organization, err := e }] }
  | Except.ok org =>
    match fetchTeamsLoop c organization fuel { PerPage := 100 } []
        [Request.getOrg organization] with
    | none => none
    | some (Except.error (e, reqs, logs)) =>
      some { data := none, steps := [], err := some e,
             requests := reqs, logs := logs }
    | some (Except.ok (allTeams, reqs)) =>
      some { data := some { Settings := org, Teams := allTeams },
             steps := fetchSteps, err := none,
             requests := reqs, logs := [] }

/-! ### `main.go`: config validation and `Configure`

`url.ParseRequestURI` is standard-library code outside this repository; it
is passed in as an abstract parameter `parseRequestURI`. -/

/-- The `api_url` validator: non-empty and accepted by `url.ParseRequestURI`. -/
def validateApiUrl {R : Type} (parseRequestURI : String → Except R Unit)
    (value : String) : Bool :=
  if value.length = 0 then false
  else
    match parseRequestURI value with
    | Except.error _ => false
    | Except.ok _ => true

/-- The `api_key` validator: non-empty. -/
def validateApiKey (value : String) : Bool :=
  ¬ value.length = 0

/-- One character of the class `[A-Za-z0-9._-]` of the organization regex. -/
def isOrgChar (c : Char) : Bool :=
  (('A' ≤ c ∧ c ≤ 'Z') ∨ ('a' ≤ c ∧ c ≤ 'z') ∨ ('0' ≤ c ∧ c ≤ '9')
    ∨ c = '.' ∨ c = '_' ∨ c = '-')

/-- The `organization` validator: non-empty and matching `^[A-Za-z0-9._-]+$`
(re2 without multi-line: the whole value is one or more class characters,
equivalently the value is non-empty and every character is in the class). -/
def validateOrganization (value : String) : Bool :=
  if value.length = 0 then false
  else value.toList.all isOrgChar

/-- `GithubConfigValidators` as one validation step per key: `true` when the
key's validator accepts the value. -/
def validatorAccepts {R : Type} (parseRequestURI : String → Except R Unit)
    (key value : String) : Bool :=
  if key = "api_url" then validateApiUrl parseRequestURI value
  else if key = "api_key" then validateApiKey value
  else if key = "organization" then validateOrganization value
  else true

/-- The keys of `GithubConfigValidators`. -/
def githubConfigKeys : List String := ["api_url", "api_key", "organization"]

/-- The Go config map, as an association list with first-match lookup. -/
def lookupConfig (config : List (String × String)) (key : String) :
    Option String :=
  (config.find? (fun kv => kv.1 = key)).map (fun kv => kv.2)

/-- The body of Configure's validation loop for one key: `errored` is set
when the key is absent from the passed config or its validator rejects the
value. -/
def keyErrored {R : Type} (parseRequestURI : String → Except R Unit)
    (config : List (String × String)) (key : String) : Bool :=
  match lookupConfig config key with
  | none => true
  | some value => ¬ validatorAccepts parseRequestURI key value

/-- The observable outcome of `CompliancePlugin.Configure`: the `errored`
flag its validation loop computes (which only drives log lines), the config
it stores on the plugin, and the `(response, error)` pair it returns. -/
structure ConfigureOutcome where
  errored : Bool
  storedConfig : List (String × String)
  responseReturned : Bool
  err : Option String
deriving DecidableEq

/-- `CompliancePlugin.Configure`: validates every key of
`GithubConfigValidators` against the passed config, logging failures and
setting `errored`; then unconditionally stores the passed config and
returns an empty `ConfigureResponse` with a nil error. -/
def Configure {R : Type} (parseRequestURI : String → Except R Unit)
    (passedConfig : List (String × String)) : ConfigureOutcome :=
  { errored := githubConfigKeys.any (keyErrored parseRequestURI passedConfig),
    storedConfig := passedConfig,
    responseReturned := true,
    err := none }

/-! ### Concrete fixtures for witnesses and counterexamples -/

/-- The error (if any) the client returns for a given request. -/
def requestErr {Org Team R : Type} (c : Client Org Team R) : Request → Option R
  | Request.getOrg org =>
    match c.getOrganization org with
    | Except.error e => some e
    | Except.ok _ => none
  | Request.listTeams org opt =>
    match c.listTeams org opt with
    | Except.error e => some e
    | Except.ok _ => none

/-- The request trace carried by either outcome of the team loop. -/
def loopOutReqs {Team R : Type} :
    Except (R × List Request × List (LogEntry R)) (List Team × List Request) →
    List Request
  | Except.error (_, rs, _) => rs
  | Except.ok (_, rs) => rs

/-- A simulated platform serving 3 team pages of 100, 100 and 40 teams
(teams numbered 0‥239 in page order), with next-page cursor 2, 3, then 0. -/
def simTeamsClient : Client String Nat String :=
  { getOrganization := fun _ => Except.ok "acme",
    listTeams := fun _ opt =>
      if opt.Page ≤ 1 then Except.ok (List.range' 0 100, 2)
      else if opt.Page = 2 then Except.ok (List.range' 100 100, 3)
      else Except.ok (List.range' 200 40, 0) }

/-- The outcome of `FetchData` on the simulated 3-page platform. -/
def simFetchResult : FetchResult String Nat String :=
  { data := some { Settings := "acme", Teams := List.range 240 },
    steps := fetchSteps,
    err := none,
    requests := [Request.getOrg "acme",
      Request.listTeams "acme" { PerPage := 100, Page := 0 },
      Request.listTeams "acme" { PerPage := 100, Page := 2 },
      Request.listTeams "acme" { PerPage := 100, Page := 3 }],
    logs := [] }

/-- A platform on which every request fails. -/
def failingClient : Client String Nat String :=
  { getOrganization := fun _ => Except.error "boom",
    listTeams := fun _ _ => Except.error "boom" }

/-- The outcome of `FetchData` against `failingClient`. -/
def failFetchResult : FetchResult String Nat String :=
  { data := none,
    steps := [],
    err := some "boom",
    requests := [Request.getOrg "acme"],
    logs := [{ msg := "Error getting organization information",
               org := "acme", err := "boom" }] }

/-- A concrete policy engine: fails on bundle path "bad", produces one
evidence record on any other path. -/
def engineW : Engine Nat String :=
  fun call _ =>
    if call.policyPath = "bad" then ([], some "bundle failed") else ([7], none)

/-- A concrete fetched organization. -/
def orgW : Organization :=
  { login := some "acme", name := some "Acme Inc",
    url := some "https://api.github.com/orgs/acme" }

/-- A freshly constructed evaluator. -/
def peW : PolicyEvaluator Nat := NewPolicyEvaluator Nat []

/-- A URI parser accepting everything (`url.ParseRequestURI` is external;
for the counterexample any parser will do). -/
def trivialParseURI : String → Except String Unit := fun _ => Except.ok ()

/-- A config whose `api_key` is empty: validation fails on it. -/
def badConfig : List (String × String) :=
  [("api_url", "https://api.github.com"), ("api_key", ""),
   ("organization", "acme")]

/-! ## Theorems -/

/-- The bundle loop, in closed form: the evidence collection is the in-order
concatenation of every bundle's evidence, and the collected errors are the
per-bundle errors in loop order. -/
theorem evalBundles_spec {E R : Type} (engine : Engine E R) (org : Organization) :
    ∀ paths : List String,
    evalBundles engine org paths =
      (paths.flatMap (fun p => (engine (processorCall org p) org).1),
       paths.filterMap (fun p => (engine (processorCall org p) org).2))
  | [] => rfl
  | p :: rest => by
    have ih := evalBundles_spec engine org rest
    simp only [evalBundles, ih, List.flatMap_cons, List.filterMap_cons]
    cases h : (engine (processorCall org p) org).2 <;> simp [h]

/-- C1: when the policy engine errors for some bundle, `Eval` does not abort
the loop: the returned combined error is non-nil, and the evidence collection
still holds every bundle's output (in particular, of the succeeding ones). -/
theorem eval_accumulates_errors_and_continues {E R : Type} (engine : Engine E R)
    (pe : PolicyEvaluator E) (org : Organization) (paths : List String)
    (p : String) (hp : p ∈ paths)
    (hfail : (engine (processorCall org p) org).2 ≠ none) :
    (PolicyEvaluator.Eval engine pe org paths).2.2 ≠ none ∧
    (PolicyEvaluator.Eval engine pe org paths).1.evidences =
      paths.flatMap (fun q => (engine (processorCall org q) org).1) := by
  have hspec := evalBundles_spec engine org paths
  constructor
  · simp only [PolicyEvaluator.Eval, hspec, joinedErrors]
    obtain ⟨e, he⟩ := Option.ne_none_iff_exists'.mp hfail
    have hmem : e ∈ paths.filterMap (fun q => (engine (processorCall org q) org).2) :=
      List.mem_filterMap.mpr ⟨p, hp, he⟩
    have hne := List.ne_nil_of_mem hmem
    simp [List.isEmpty_iff, hne]
  · simp [PolicyEvaluator.Eval, hspec]

/-- Witness for C1 at a concrete engine failing on bundle "bad" and
producing evidence on bundle "good". -/
theorem eval_accumulates_errors_and_continues_witness :
    ("bad" ∈ ["bad", "good"] ∧
      (engineW (processorCall orgW "bad") orgW).2 ≠ none) ∧
    ((PolicyEvaluator.Eval engineW peW orgW ["bad", "good"]).2.2 ≠ none ∧
     (PolicyEvaluator.Eval engineW peW orgW ["bad", "good"]).1.evidences =
       ["bad", "good"].flatMap (fun q => (engineW (processorCall orgW q) orgW).1)) :=
  ⟨⟨by decide, by decide⟩,
   eval_accumulates_errors_and_continues engineW peW orgW ["bad", "good"] "bad"
     (by decide) (by decide)⟩

/-- C2: the provenance scaffolding bound into the policy processor is the
same value for every bundle path of one `Eval` call — exactly the
scaffolding built once before the bundle loop — and only the bundle path
differs between iterations. -/
theorem scaffolding_shared_across_bundles (org : Organization) (p q : String) :
    (processorCall org p).labels = (processorCall org q).labels ∧
    (processorCall org p).subjects = (processorCall org q).subjects ∧
    (processorCall org p).components = (processorCall org q).components ∧
    (processorCall org p).inventory = (processorCall org q).inventory ∧
    (processorCall org p).actors = (processorCall org q).actors ∧
    (processorCall org p).activities = (processorCall org q).activities ∧
    (processorCall org p).subjects = evalSubjects org ∧
    (processorCall org p).components = evalComponents ∧
    (processorCall org p).inventory = evalInventory org ∧
    (processorCall org p).actors = evalActors ∧
    (processorCall org p).activities = evalActivities :=
  ⟨rfl, rfl, rfl, rfl, rfl, rfl, rfl, rfl, rfl, rfl, rfl⟩

/-- C3: `Eval` returns execution status `SUCCESS` for every organization,
bundle list and engine outcome; the status never reflects the accumulated
error, which the caller must inspect separately. -/
theorem eval_status_always_success {E R : Type} (engine : Engine E R)
    (pe : PolicyEvaluator E) (org : Organization) (paths : List String) :
    (PolicyEvaluator.Eval engine pe org paths).2.1 = ExecutionStatus.SUCCESS :=
  rfl

/-- C8: the scaffolding contains exactly the fixed pair of components
"common-components/github-organization" and "common-components/version-control"
(with static, snapshot-independent text), and exactly one inventory item
keyed "github-organization/<login>" that links to both components by
identifier reference. -/
theorem scaffolding_fixed_components_and_inventory
    (org org' : Organization) (p : String) :
    evalComponents.map Component.Identifier =
      ["common-components/github-organization",
       "common-components/version-control"] ∧
    evalComponents.length = 2 ∧
    evalComponents.map Component.Title =
      ["GitHub Organization", "Version Control"] ∧
    (processorCall org p).components = (processorCall org' p).components ∧
    (evalInventory org).length = 1 ∧
    (evalInventory org).map InventoryItem.Identifier =
      ["github-organization/" ++ org.GetLogin] ∧
    (evalInventory org).map (fun item => item.ImplementedComponents) =
      [[{ Identifier := "common-components/github-organization" },
        { Identifier := "common-components/version-control" }]] ∧
    (evalInventory org).map (fun item => item.ImplementedComponents.map
        InventoryItemImplementedComponent.Identifier) =
      [evalComponents.map Component.Identifier] :=
  ⟨rfl, rfl, rfl, rfl, rfl, rfl, rfl, rfl⟩

/-- C9: the evidence `Eval` produces is a function of the engine, the
snapshot and the bundle paths only — it does not depend on the evaluator's
prior state, so a second identical call yields the identical collection. -/
theorem eval_idempotent_across_calls {E R : Type} (engine : Engine E R)
    (org : Organization) (paths : List String) (pe pe' : PolicyEvaluator E) :
    (PolicyEvaluator.Eval engine pe org paths).1.GetEvidences =
      (PolicyEvaluator.Eval engine pe' org paths).1.GetEvidences ∧
    (PolicyEvaluator.Eval engine
        (PolicyEvaluator.Eval engine pe org paths).1 org paths).1.GetEvidences =
      (PolicyEvaluator.Eval engine pe org paths).1.GetEvidences ∧
    (PolicyEvaluator.Eval engine pe org paths).2 =
      (PolicyEvaluator.Eval engine pe' org paths).2 :=
  ⟨rfl, rfl, rfl⟩

/-- C10: `NewPolicyEvaluator` stores the step activities it is given, but
the activities bound into every per-bundle processor invocation are exactly
the single hardcoded "Compile Results" activity with its two compile/execute
steps; the stored activities never reach the engine, and `Eval`'s outcome is
independent of them. -/
theorem step_activities_never_bound_into_processor {E R : Type}
    (acts acts' : List Activity) (org : Organization) (p : String)
    (engine : Engine E R) (paths : List String) :
    (NewPolicyEvaluator E acts).stepActivities = acts ∧
    (processorCall org p).activities = [compileResultsActivity] ∧
    compileResultsActivity.Title = "Compile Results" ∧
    compileResultsActivity.Steps.map Step.Title =
      ["Compile policy bundle", "Execute policy bundle"] ∧
    (PolicyEvaluator.Eval engine (NewPolicyEvaluator E acts) org paths).1.GetEvidences =
      (PolicyEvaluator.Eval engine (NewPolicyEvaluator E acts') org paths).1.GetEvidences ∧
    (PolicyEvaluator.Eval engine (NewPolicyEvaluator E acts) org paths).2 =
      (PolicyEvaluator.Eval engine (NewPolicyEvaluator E acts') org paths).2 :=
  ⟨rfl, rfl, rfl, rfl, rfl, rfl⟩

/-- Every request the team loop adds to its trace is a team-page request to
the same organization carrying the unchanged `PerPage` of the entry options. -/
theorem fetchTeamsLoop_requests {Org Team R : Type} (c : Client Org Team R)
    (org : String) (fuel : Nat) :
    ∀ (opt : ListOptions) (acc : List Team) (reqs : List Request) out,
      fetchTeamsLoop c org fuel opt acc reqs = some out →
      ∀ r ∈ loopOutReqs out,
        r ∈ reqs ∨
          ∃ page, r = Request.listTeams org { PerPage := opt.PerPage, Page := page } := by
  induction fuel with
  | zero =>
    intro opt acc reqs out h
    simp [fetchTeamsLoop] at h
  | succ n ih =>
    intro opt acc reqs out h r hr
    simp only [fetchTeamsLoop] at h
    split at h
    · -- listTeams failed: the trace is reqs plus this one request
      simp only [Option.some.injEq] at h
      subst h
      simp only [loopOutReqs] at hr
      rcases List.mem_append.mp hr with h1 | h1
      · exact Or.inl h1
      · simp only [List.mem_singleton] at h1
        exact Or.inr ⟨opt.Page, h1⟩
    · -- a page arrived
      split at h
      · -- NextPage = 0: loop ends with the trace reqs plus this request
        simp only [Option.some.injEq] at h
        subst h
        simp only [loopOutReqs] at hr
        rcases List.mem_append.mp hr with h1 | h1
        · exact Or.inl h1
        · simp only [List.mem_singleton] at h1
          exact Or.inr ⟨opt.Page, h1⟩
      · -- follow the next-page cursor, with the same PerPage
        rcases ih _ _ _ _ h r hr with h1 | ⟨page, hpage⟩
        · rcases List.mem_append.mp h1 with h2 | h2
          · exact Or.inl h2
          · simp only [List.mem_singleton] at h2
            exact Or.inr ⟨opt.Page, h2⟩
        · exact Or.inr ⟨page, hpage⟩

/-- C4: team retrieval always pages with the fixed `PerPage = 100` against
the requested organization; on the simulated 3-page platform (100/100/40
teams, next-page cursor until 0) `FetchData` issues exactly the three page
requests and returns exactly the 240 distinct teams concatenated in page
order. -/
theorem fetchData_pagination_fixed_page_size {Org Team R : Type}
    (c : Client Org Team R) (organization : String) (fuel : Nat)
    (res : FetchResult Org Team R) (h : FetchData c organization fuel = some res)
    (o : String) (opt : ListOptions)
    (hmem : Request.listTeams o opt ∈ res.requests) :
    (o = organization ∧ opt.PerPage = 100) ∧
    FetchData simTeamsClient "acme" 10 = some simFetchResult ∧
    simFetchResult.data = some { Settings := "acme", Teams := List.range 240 } ∧
    (List.range 240).length = 240 ∧ (List.range 240).Nodup := by
  refine ⟨?_, by decide, rfl, List.length_range 240, List.nodup_range 240⟩
  unfold FetchData at h
  split at h
  · -- getOrganization failed: the only request is the organization one
    simp only [Option.some.injEq] at h
    subst h
    simp at hmem
  · split at h
    · simp at h
    · -- loop failed
      simp only [Option.some.injEq] at h
      subst h
      rcases fetchTeamsLoop_requests c organization fuel _ _ _ _ (by assumption)
          _ hmem with h1 | ⟨page, hpage⟩
      · simp at h1
      · rw [Request.listTeams.injEq] at hpage
        exact ⟨hpage.1, by rw [hpage.2]⟩
    · -- loop succeeded
      simp only [Option.some.injEq] at h
      subst h
      rcases fetchTeamsLoop_requests c organization fuel _ _ _ _ (by assumption)
          _ hmem with h1 | ⟨page, hpage⟩
      · simp at h1
      · rw [Request.listTeams.injEq] at hpage
        exact ⟨hpage.1, by rw [hpage.2]⟩

/-- Witness for C4 at the simulated platform: the second page request. -/
theorem fetchData_pagination_fixed_page_size_witness :
    (FetchData simTeamsClient "acme" 10 = some simFetchResult ∧
     Request.listTeams "acme" { PerPage := 100, Page := 2 } ∈ simFetchResult.requests) ∧
    (("acme" = "acme" ∧ ({ PerPage := 100, Page := 2 } : ListOptions).PerPage = 100) ∧
     FetchData simTeamsClient "acme" 10 = some simFetchResult ∧
     simFetchResult.data = some { Settings := "acme", Teams := List.range 240 } ∧
     (List.range 240).length = 240 ∧ (List.range 240).Nodup) :=
  ⟨⟨by decide, by decide⟩,
   fetchData_pagination_fixed_page_size simTeamsClient "acme" 10 simFetchResult
     (by decide) "acme" { PerPage := 100, Page := 2 } (by decide)⟩

/-- When the team loop fails, it logs the organization and the error, its
trace ends at the failing request (nothing is issued after the failure, and
nothing is re-tried), and every earlier request had succeeded. -/
theorem fetchTeamsLoop_error_spec {Org Team R : Type} (c : Client Org Team R)
    (org : String) (fuel : Nat) :
    ∀ (opt : ListOptions) (acc : List Team) (reqs : List Request) e rs logs,
      fetchTeamsLoop c org fuel opt acc reqs = some (Except.error (e, rs, logs)) →
      (∀ r ∈ reqs, requestErr c r = none) →
      logs = [{ msg := "Error getting teams information", org := org, err := e }] ∧
      ∃ rsInit last, rs = rsInit ++ [last] ∧ requestErr c last = some e ∧
        ∀ r ∈ rsInit, requestErr c r = none := by
  induction fuel with
  | zero =>
    intro opt acc reqs e rs logs h
    simp [fetchTeamsLoop] at h
  | succ n ih =>
    intro opt acc reqs e rs logs h hok
    simp only [fetchTeamsLoop] at h
    split at h
    next e0 heq =>
      simp only [Option.some.injEq, Except.error.injEq, Prod.mk.injEq] at h
      obtain ⟨he, hrs, hlogs⟩ := h
      subst he
      refine ⟨hlogs.symm, reqs, Request.listTeams org opt, hrs.symm, ?_, hok⟩
      simp [requestErr, heq]
    next teams nextPage heq =>
      split at h
      · simp at h
      · refine ih _ _ _ _ _ _ h ?_
        intro r hr
        rcases List.mem_append.mp hr with h1 | h1
        · exact hok r h1
        · simp only [List.mem_singleton] at h1
          subst h1
          simp [requestErr, heq]

/-- C5: whenever `FetchData` returns an error, the returned data is nil (no
partial snapshot) and the step list nil, an error log names the organization
and the underlying error, and the request trace ends at the single failing
request — every earlier request succeeded and none follows it (no retry). -/
theorem fetchData_fail_fast {Org Team R : Type} (c : Client Org Team R)
    (organization : String) (fuel : Nat) (res : FetchResult Org Team R) (e : R)
    (h : FetchData c organization fuel = some res) (he : res.err = some e) :
    res.data = none ∧ res.steps = [] ∧
    (∃ entry ∈ res.logs, entry.org = organization ∧ entry.err = e) ∧
    ∃ rsInit last, res.requests = rsInit ++ [last] ∧
      requestErr c last = some e ∧ ∀ r ∈ rsInit, requestErr c r = none := by
  unfold FetchData at h
  split at h
  next e0 heq =>
    simp only [Option.some.injEq] at h
    subst h
    simp only [Option.some.injEq] at he
    subst he
    exact ⟨rfl, rfl,
      ⟨{ msg := "Error getting organization information",
         org := organization, err := e0 },
        List.mem_singleton.mpr rfl, rfl, rfl⟩,
      [], Request.getOrg organization, rfl, by simp [requestErr, heq], by simp⟩
  next o heq =>
    split at h
    · simp at h
    next e0 reqs0 logs0 hloop =>
      simp only [Option.some.injEq] at h
      subst h
      simp only [Option.some.injEq] at he
      subst he
      have hinit : ∀ r ∈ [Request.getOrg organization], requestErr c r = none := by
        intro r hr
        simp only [List.mem_singleton] at hr
        subst hr
        simp [requestErr, heq]
      obtain ⟨hlogs, rsInit, last, hrs, hlast, hpre⟩ :=
        fetchTeamsLoop_error_spec c organization fuel _ _ _ _ _ _ hloop hinit
      refine ⟨rfl, rfl,
        ⟨{ msg := "Error getting teams information",
           org := organization, err := e0 },
          ?_, rfl, rfl⟩, rsInit, last, hrs, hlast, hpre⟩
      rw [hlogs]
      exact List.mem_singleton.mpr rfl
    · simp only [Option.some.injEq] at h
      subst h
      simp at he

/-- Witness for C5: the platform on which the organization request fails. -/
theorem fetchData_fail_fast_witness :
    (FetchData failingClient "acme" 5 = some failFetchResult ∧
     failFetchResult.err = some "boom") ∧
    (failFetchResult.data = none ∧ failFetchResult.steps = [] ∧
     (∃ entry ∈ failFetchResult.logs, entry.org = "acme" ∧ entry.err = "boom") ∧
     ∃ rsInit last, failFetchResult.requests = rsInit ++ [last] ∧
       requestErr failingClient last = some "boom" ∧
       ∀ r ∈ rsInit, requestErr failingClient r = none) :=
  ⟨⟨by decide, by decide⟩,
   fetchData_fail_fast failingClient "acme" 5 failFetchResult "boom"
     (by decide) (by decide)⟩

/-- C7 counterexample: on a failed fetch, `FetchData` returns a nil step
list (`nil, nil, err` in the Go), not the three constructed steps — so the
steps are unavailable to the caller exactly when the fetch fails. -/
theorem fetchData_failed_fetch_returns_nil_steps :
    FetchData failingClient "acme" 5 = some failFetchResult ∧
    failFetchResult.err = some "boom" ∧
    failFetchResult.steps = [] ∧
    failFetchResult.steps ≠ fetchSteps ∧
    fetchSteps.length = 3 :=
  ⟨by decide, rfl, rfl, by decide, rfl⟩

/-- C7 (amended): the step entries are built unconditionally before any call
is attempted, but they reach the caller only on success: a successful fetch
returns exactly the three constructed steps, a failed fetch returns a nil
step list. -/
theorem fetchData_steps_only_on_success {Org Team R : Type}
    (c : Client Org Team R) (organization : String) (fuel : Nat)
    (res : FetchResult Org Team R)
    (h : FetchData c organization fuel = some res) :
    (res.err = none → res.steps = fetchSteps) ∧
    (res.err ≠ none → res.steps = []) := by
  unfold FetchData at h
  split at h
  · simp only [Option.some.injEq] at h
    subst h
    exact ⟨by simp, fun _ => rfl⟩
  · split at h
    · simp at h
    · simp only [Option.some.injEq] at h
      subst h
      exact ⟨by simp, fun _ => rfl⟩
    · simp only [Option.some.injEq] at h
      subst h
      exact ⟨fun _ => rfl, by simp⟩

/-- Witness for the amended C7 at the simulated (successful) platform. -/
theorem fetchData_steps_only_on_success_witness :
    FetchData simTeamsClient "acme" 10 = some simFetchResult ∧
    ((simFetchResult.err = none → simFetchResult.steps = fetchSteps) ∧
     (simFetchResult.err ≠ none → simFetchResult.steps = [])) :=
  ⟨by decide,
   fetchData_steps_only_on_success simTeamsClient "acme" 10 simFetchResult (by decide)⟩

/-- C6 counterexample: on a config whose `api_key` is empty, the validation
loop flags the configuration as invalid, yet `Configure` returns a nil error
to its caller and stores the invalid config for later use. -/
theorem configure_returns_nil_error_on_invalid_config :
    (Configure trivialParseURI badConfig).errored = true ∧
    (Configure trivialParseURI badConfig).err = none ∧
    (Configure trivialParseURI badConfig).storedConfig = badConfig :=
  ⟨by decide, rfl, rfl⟩

/-- C6 (amended): Configure validates every configured key before first use
(api_key non-empty; organization non-empty and matching `[A-Za-z0-9._-]+`;
api_url non-empty and accepted by the URI parser), setting its `errored`
flag exactly when some key is missing or rejected — but the flag only drives
logging: Configure always returns a nil error and stores the passed config,
so invalid configuration is not signalled to the caller and surfaces later
at fetch time. -/
theorem configure_validates_but_does_not_signal {R : Type}
    (parseRequestURI : String → Except R Unit)
    (cfg : List (String × String)) :
    (Configure parseRequestURI cfg).err = none ∧
    (Configure parseRequestURI cfg).storedConfig = cfg ∧
    (Configure parseRequestURI cfg).responseReturned = true ∧
    ((Configure parseRequestURI cfg).errored = false ↔
      ∀ key ∈ githubConfigKeys, keyErrored parseRequestURI cfg key = false) ∧
    validateApiKey "" = false ∧
    validateOrganization "" = false ∧
    validateOrganization "Acme-Org_1.0" = true ∧
    validateOrganization "acme org" = false := by
  refine ⟨rfl, rfl, rfl, ?_, by decide, by decide, by decide, by decide⟩
  simp only [Configure, List.any_eq_false, Bool.not_eq_true]

/-- Witness for the amended C6 at a concrete parser and config. -/
theorem configure_validates_but_does_not_signal_witness :
    (Configure trivialParseURI badConfig).err = none ∧
    (Configure trivialParseURI badConfig).storedConfig = badConfig ∧
    (Configure trivialParseURI badConfig).responseReturned = true ∧
    ((Configure trivialParseURI badConfig).errored = false ↔
      ∀ key ∈ githubConfigKeys,
        keyErrored trivialParseURI badConfig key = false) ∧
    validateApiKey "" = false ∧
    validateOrganization "" = false ∧
    validateOrganization "Acme-Org_1.0" = true ∧
    validateOrganization "acme org" = false :=
  configure_validates_but_does_not_signal trivialParseURI badConfig

end GithubSettings
